import Mathlib

/-!
A shallow embedding of `server.py` (flatypus/hoyomap): a small HTTP asset
server whose core is a request router with path-confinement.  Paths on the
filesystem are modelled as lists of segments (`List String`); client strings
are Lean `String`s; the filesystem is an explicit association-list state.
`Path.resolve()` is modelled as lexical normalization, i.e. the behaviour of
non-strict `resolve` on a symlink-free POSIX tree.
-/

namespace Hoyomap

/-! ### Character/string primitives used by the embedding -/

/-- Code-point lexicographic `<=` on char lists (Python string comparison). -/
def lexLe : List Char → List Char → Bool
  | [], _ => true
  | _ :: _, [] => false
  | a :: as, b :: bs =>
    if a.toNat < b.toNat then true
    else if b.toNat < a.toNat then false
    else lexLe as bs

/-- Python `a <= b` on strings: code-point lexicographic order. -/
def strLeB (a b : String) : Bool := lexLe a.data b.data

/-- Insert into a sorted list (helper for the model of Python `sorted`). -/
def insertSorted (a : String) : List String → List String
  | [] => [a]
  | b :: bs => if strLeB a b then a :: b :: bs else b :: insertSorted a bs

/-- Models Python `sorted` on strings: a stable ascending sort by code point. -/
def sortStrings : List String → List String
  | [] => []
  | x :: xs => insertSorted x (sortStrings xs)

instance {ε α : Type} [DecidableEq ε] [DecidableEq α] : DecidableEq (Except ε α) := fun x y =>
  match x, y with
  | Except.ok a, Except.ok b =>
    if h : a = b then isTrue (congrArg Except.ok h)
    else isFalse (fun e => h (Except.ok.inj e))
  | Except.error a, Except.error b =>
    if h : a = b then isTrue (congrArg Except.error h)
    else isFalse (fun e => h (Except.error.inj e))
  | Except.ok _, Except.error _ => isFalse (fun e => Except.noConfusion e)
  | Except.error _, Except.ok _ => isFalse (fun e => Except.noConfusion e)

/-- Generic list-prefix test (Python `str.startswith` on the char lists). -/
def isLeading {α : Type} [BEq α] : List α → List α → Bool
  | [], _ => true
  | _ :: _, [] => false
  | a :: as, b :: bs => a == b && isLeading as bs

/-- Python `s.startswith(pre)`. -/
def strStartsWith (s pre : String) : Bool := isLeading pre.data s.data

/-- Python `s.endswith(suf)`. -/
def strEndsWith (s suf : String) : Bool := isLeading suf.data.reverse s.data.reverse

/-- Python `s[n:]` (slicing is by code point). -/
def strDropChars (s : String) : Nat → String := fun n => String.mk (s.data.drop n)

/-- Python `self.path.split("?")[0]`: everything before the first `?`. -/
def stripQuery (s : String) : String := String.mk (s.data.takeWhile (fun c => !(c == '?')))

/-- Association-list lookup, modelling Python dict lookup (`d[k]` / `k in d`). -/
def assocFind {κ α : Type} [BEq κ] : List (κ × α) → κ → Option α
  | [], _ => none
  | (k, v) :: rest, key => if k == key then some v else assocFind rest key

/-! ### Path model: `pathlib` on POSIX, symlink-free -/

/-- Split a raw string on `/` (the segment decomposition used by `PurePosixPath`). -/
def splitOnSlash : List Char → List (List Char)
  | [] => [[]]
  | c :: rest =>
    match splitOnSlash rest with
    | [] => [[]]
    | seg :: segs => if c = '/' then [] :: seg :: segs else (c :: seg) :: segs

/-- The raw segments of a candidate string (empty segments and `.` are dropped
later by `normalize`, exactly as `PurePosixPath` drops them). -/
def segStrings (s : String) : List String := (splitOnSlash s.data).map String.mk

/-- Python `PurePosixPath(s).is_absolute()`: the string begins with `/`. -/
def isAbsStr (s : String) : Bool :=
  match s.data with
  | [] => false
  | c :: _ => c == '/'

/-- One step of lexical path normalization: `""` and `"."` are dropped, `".."`
removes the last segment (staying at the root when there is none). -/
def normStep (acc : List String) (seg : String) : List String :=
  if seg = "" ∨ seg = "." then acc
  else if seg = ".." then acc.dropLast
  else acc ++ [seg]

/-- Models `Path.resolve()` on a symlink-free tree: lexical normalization of
the segments of an absolute path. -/
def normalize (segs : List String) : List String := segs.foldl normStep []

/-- Python `directory / filename`: an absolute `filename` discards `directory`. -/
def joinPy (directory : List String) (filename : String) : List String :=
  if isAbsStr filename then segStrings filename else directory ++ segStrings filename

/-- `server.py` line 28: `safe_resolve(directory, filename)`.  Resolves the
join, then accepts only if the result `is_relative_to` the resolved root
(a path-segment prefix test). -/
def safe_resolve (directory : List String) (filename : String) : Option (List String) :=
  if isLeading (normalize directory) (normalize (joinPy directory filename))
  then some (normalize (joinPy directory filename))
  else none

/-! ### Filesystem state -/

/-- Abstract read-only filesystem: directories (with their direct-child entry
names) and regular files (with their byte contents), keyed by canonical
absolute path segments. -/
structure FS where
  dirs : List (List String × List String)
  files : List (List String × List Nat)
deriving DecidableEq

/-- `p.exists()` / `directory.exists()`: the path is a known directory or file. -/
def fsExists (fs : FS) (p : List String) : Bool :=
  (assocFind fs.dirs p).isSome || (assocFind fs.files p).isSome

/-- `path.read_bytes()`: reading a directory raises `IsADirectoryError`;
reading a missing path raises `FileNotFoundError`. -/
def readBytes (fs : FS) (p : List String) : Except String (List Nat) :=
  match assocFind fs.dirs p with
  | some _ => Except.error "IsADirectoryError"
  | none =>
    match assocFind fs.files p with
    | some bytes => Except.ok bytes
    | none => Except.error "FileNotFoundError"

/-- `server.py` line 38: `list_files(directory, ext)`.  A nonexistent
directory yields `[]`; an existing directory yields its matching children
sorted; `os.listdir` on an existing non-directory raises. -/
def list_files (fs : FS) (directory : List String) (ext : String) :
    Except String (List String) :=
  if !(fsExists fs directory) then Except.ok []
  else
    match assocFind fs.dirs directory with
    | some names => Except.ok (sortStrings (names.filter (fun f => strEndsWith f ext)))
    | none => Except.error "NotADirectoryError"

/-! ### Route tables (`server.py` lines 11-25), parameterized by `BASE` -/

def GAME (base : List String) : List String := base ++ ["game_data"]

/-- `ASSET_ROUTES`: name ↦ (root directory, extension, content type), in dict
insertion order. -/
def ASSET_ROUTES (base : List String) :
    List (String × (List String × String × String)) :=
  [ ("hlod", (GAME base ++ ["hlod"], ".obj", "model/obj")),
    ("terrain", (GAME base ++ ["terrain"], ".obj", "model/obj")),
    ("hlod_all", (GAME base ++ ["hlod_all"], ".obj", "model/obj")),
    ("textures", (GAME base ++ ["textures"], ".png", "image/png")) ]

/-- `SINGLE_FILE_ROUTES`: exact url path ↦ (file, content type). -/
def SINGLE_FILE_ROUTES (base : List String) :
    List (String × (List String × String)) :=
  [ ("/manifest", (base ++ ["manifests", "android_manifest.json"], "application/json")),
    ("/all_hlod_manifest", (base ++ ["manifests", "all_hlod_manifest.json"], "application/json")),
    ("/ocean.obj", (base ++ ["ocean.obj"], "model/obj")),
    ("/ocean.glb", (base ++ ["ocean.glb"], "model/gltf-binary")),
    ("/skybox.png", (base ++ ["skybox.png"], "image/png")),
    ("/overrides.json", (base ++ ["overrides.json"], "application/json")) ]

/-! ### Response emission (`server.py` lines 78-99) -/

structure HttpResponse where
  status : Nat
  contentType : String
  contentLength : Nat
  cacheControl : Option String
  corsAny : Bool
  body : List Nat
deriving DecidableEq

/-- What handling one GET produces.  `errorNotFound` is `send_error(404)`;
`fallbackStatic` is delegation to `SimpleHTTPRequestHandler.do_GET` with the
given value of `self.path`; `crash` is an uncaught Python exception (the
connection is dropped with no HTTP status line). -/
inductive Outcome where
  | resp (r : HttpResponse)
  | errorNotFound
  | fallbackStatic (selfPath : String)
  | crash (msg : String)
deriving DecidableEq

/-- UTF-8 bytes of one scalar value (`str.encode`). -/
def utf8Bytes (c : Char) : List Nat :=
  let n := c.toNat
  if n < 0x80 then [n]
  else if n < 0x800 then [0xC0 + n / 0x40, 0x80 + n % 0x40]
  else if n < 0x10000 then
    [0xE0 + n / 0x1000, 0x80 + (n / 0x40) % 0x40, 0x80 + n % 0x40]
  else
    [0xF0 + n / 0x40000, 0x80 + (n / 0x1000) % 0x40, 0x80 + (n / 0x40) % 0x40, 0x80 + n % 0x40]

/-- Python `s.encode()`. -/
def encodeStr (s : String) : List Nat := s.data.foldr (fun c acc => utf8Bytes c ++ acc) []

def hexDigit (n : Nat) : Char := if n < 10 then Char.ofNat (48 + n) else Char.ofNat (87 + n)

def hex4 (n : Nat) : String :=
  String.mk [hexDigit (n / 4096 % 16), hexDigit (n / 256 % 16), hexDigit (n / 16 % 16), hexDigit (n % 16)]

/-- `json.dumps` escaping of one character (default `ensure_ascii=True`). -/
def escChar (c : Char) : String :=
  if c = '"' then "\\\""
  else if c = '\\' then "\\\\"
  else if c.toNat = 8 then "\\b"
  else if c.toNat = 12 then "\\f"
  else if c = '\n' then "\\n"
  else if c = '\r' then "\\r"
  else if c = '\t' then "\\t"
  else if c.toNat < 0x20 then "\\u" ++ hex4 c.toNat
  else if c.toNat < 0x7F then String.mk [c]
  else if c.toNat < 0x10000 then "\\u" ++ hex4 c.toNat
  else
    let v := c.toNat - 0x10000
    "\\u" ++ hex4 (0xD800 + v / 0x400) ++ "\\u" ++ hex4 (0xDC00 + v % 0x400)

def jsonStr (s : String) : String := "\"" ++ String.join (s.data.map escChar) ++ "\""

/-- Python `json.dumps` on a list of strings (default separators). -/
def jsonDumps (xs : List String) : String :=
  "[" ++ String.intercalate ", " (xs.map jsonStr) ++ "]"

/-- `Handler._serve_json` (lines 78-84): 200, `application/json`,
`Content-Length: len(body)`; `end_headers` adds the CORS header. -/
def serve_json (xs : List String) : Outcome :=
  let body := encodeStr (jsonDumps xs)
  Outcome.resp
    { status := 200, contentType := "application/json", contentLength := body.length,
      cacheControl := none, corsAny := true, body := body }

/-- `Handler._serve_file` (lines 86-95): missing path ⇒ `send_error(404)`;
otherwise `read_bytes` (which may raise) then 200 with the exact length and
the cache header. -/
def serve_file (fs : FS) (p : List String) (ctype : String) : Outcome :=
  if !(fsExists fs p) then Outcome.errorNotFound
  else
    match readBytes fs p with
    | Except.ok bytes =>
      Outcome.resp
        { status := 200, contentType := ctype, contentLength := bytes.length,
          cacheControl := some "public, max-age=3600", corsAny := true, body := bytes }
    | Except.error e => Outcome.crash e

/-! ### Request dispatch (`server.py` lines 48-76) -/

/-- Which routing rule a (query-stripped) path lands on. -/
inductive RouteClass where
  | single (fpath : List String) (ctype : String)
  | listing (dir : List String) (ext : String)
  | assetHit (dir : List String) (ctype : String) (filename : String)
  | fallThrough
deriving DecidableEq

/-- The `f"/{name}/"` url head of an asset route. -/
def routeHead (name : String) : List Char := '/' :: name.data ++ ['/']

/-- The `for name, (directory, _, ctype) in ASSET_ROUTES.items()` loop
(lines 64-71): first route whose `/{name}/` head the path starts with;
the candidate filename is `path[len(prefix):]`. -/
def findAsset (routes : List (String × (List String × String × String)))
    (path : String) : Option (List String × String × String) :=
  match routes with
  | [] => none
  | (name, dir, _ext, ctype) :: rest =>
    if isLeading (routeHead name) path.data
    then some (dir, ctype, String.mk (path.data.drop (routeHead name).length))
    else findAsset rest path

/-- The classification chain of `do_GET`, in source order: exact single-file
match, then `/list_<name>` with a known name (an unknown name falls through),
then the asset-prefix loop, then the static fallback. -/
def classify (base : List String) (path : String) : RouteClass :=
  match assocFind (SINGLE_FILE_ROUTES base) path with
  | some (f, ct) => RouteClass.single f ct
  | none =>
    match (if strStartsWith path "/list_"
           then assocFind (ASSET_ROUTES base) (strDropChars path 6)
           else none) with
    | some (dir, ext, _) => RouteClass.listing dir ext
    | none =>
      match findAsset (ASSET_ROUTES base) path with
      | some (dir, ctype, fn) => RouteClass.assetHit dir ctype fn
      | none => RouteClass.fallThrough

/-- `Handler.do_GET` (lines 48-76): strip the query, classify, dispatch.
On `fallThrough`, `self.path` is rewritten to `/index.html` when the stripped
path is `/`, else left as the raw request path. -/
def do_GET (base : List String) (fs : FS) (selfPath : String) : Outcome :=
  match classify base (stripQuery selfPath) with
  | RouteClass.single f ct => serve_file fs f ct
  | RouteClass.listing dir ext =>
    match list_files fs dir ext with
    | Except.ok names => serve_json names
    | Except.error e => Outcome.crash e
  | RouteClass.assetHit dir ct fn =>
    match safe_resolve dir fn with
    | some r => serve_file fs r ct
    | none => Outcome.errorNotFound
  | RouteClass.fallThrough =>
    Outcome.fallbackStatic (if stripQuery selfPath == "/" then "/index.html" else selfPath)

/-- `classify` applied the way `do_GET` applies it: to the raw request path
with the query string stripped (line 49). -/
def classifyRaw (base : List String) (selfPath : String) : RouteClass :=
  classify base (stripQuery selfPath)

/-! ### Logging (`server.py` lines 101-104) -/

/-- `Handler.log_message`: the line is suppressed iff some argument
stringifies to exactly `"404"`. -/
def log_message_suppressed (args : List String) : Bool :=
  args.any (fun a => a == "404")

/-- Modelled from the stdlib collaborator `http.server`: every response logs
via `log_request(code)`, which calls
`log_message('"%s" %s %s', requestline, str(code), str(size))` with `size`
left at its default `'-'`. -/
def log_request_args (requestline codeStr : String) : List String :=
  [requestline, codeStr, "-"]

/-! ### Concrete filesystems used by closed statements -/

/-- A deployment whose `hlod` root exists and where `secret.obj` sits outside
that root (directly under the base directory). -/
def fsWithSecret : FS :=
  { dirs := [(["srv", "game_data", "hlod"], [])],
    files := [(["srv", "secret.obj"], [9, 9])] }

/-- A deployment where the `hlod` root directory exists (and is, of course, a
directory, not a regular file). -/
def fsHlodDir : FS :=
  { dirs := [(["b", "game_data", "hlod"], [])], files := [] }

/-- A directory `r` holding `b.obj`, `a.obj` and `c.txt`. -/
def fsListing : FS :=
  { dirs := [(["r"], ["b.obj", "a.obj", "c.txt"])], files := [] }

/-- A single-file deployment holding a 3-byte manifest. -/
def fsManifest : FS :=
  { dirs := [], files := [(["b", "manifests", "android_manifest.json"], [1, 2, 3])] }

/-- The response `do_GET` produces for `/manifest` over `fsManifest`. -/
def respManifest : HttpResponse :=
  { status := 200, contentType := "application/json", contentLength := 3,
    cacheControl := some "public, max-age=3600", corsAny := true, body := [1, 2, 3] }

/-! ### Helper lemmas -/

theorem isLeading_refl {α : Type} [BEq α] [LawfulBEq α] : ∀ l : List α, isLeading l l = true
  | [] => rfl
  | a :: as => by simp [isLeading, isLeading_refl as]

theorem isLeading_append {α : Type} [BEq α] [LawfulBEq α] (l t : List α) :
    isLeading l (l ++ t) = true := by
  induction l with
  | nil => rfl
  | cons a as ih => simp [isLeading, ih]

theorem isLeading_trans {α : Type} [BEq α] [LawfulBEq α] :
    ∀ a b c : List α, isLeading a b = true → isLeading b c = true → isLeading a c = true
  | [], _, _, _, _ => rfl
  | _ :: _, [], _, h, _ => by simp [isLeading] at h
  | _ :: _, _ :: _, [], _, h => by simp [isLeading] at h
  | a :: as, b :: bs, c :: cs, h₁, h₂ => by
    simp only [isLeading, Bool.and_eq_true, beq_iff_eq] at h₁ h₂ ⊢
    exact ⟨h₁.1.trans h₂.1, isLeading_trans as bs cs h₁.2 h₂.2⟩

theorem isLeading_normStep (acc : List String) (seg : String) (h : seg ≠ "..") :
    isLeading acc (normStep acc seg) = true := by
  unfold normStep
  by_cases h₁ : seg = "" ∨ seg = "."
  · rw [if_pos h₁]
    exact isLeading_refl acc
  · rw [if_neg h₁, if_neg h]
    exact isLeading_append acc [seg]

theorem isLeading_foldl_normStep :
    ∀ (segs : List String) (acc : List String), (∀ s ∈ segs, s ≠ "..") →
      isLeading acc (List.foldl normStep acc segs) = true
  | [], acc, _ => isLeading_refl acc
  | s :: rest, acc, h => by
    rw [List.foldl_cons]
    exact isLeading_trans _ _ _
      (isLeading_normStep acc s (h s (by simp)))
      (isLeading_foldl_normStep rest (normStep acc s) (fun x hx => h x (by simp [hx])))

theorem normalize_append (l₁ l₂ : List String) :
    normalize (l₁ ++ l₂) = List.foldl normStep (normalize l₁) l₂ := by
  simp [normalize, List.foldl_append]

theorem assocFind_mem {κ α : Type} [BEq κ] [LawfulBEq κ] :
    ∀ (l : List (κ × α)) (k : κ) (v : α), assocFind l k = some v → (k, v) ∈ l
  | [], _, _, h => by cases h
  | (k', v') :: rest, k, v, h => by
    by_cases hk : (k' == k) = true
    · have hkk : k' = k := beq_iff_eq.mp hk
      rw [assocFind, if_pos hk] at h
      cases h
      subst hkk
      exact List.mem_cons_self _ _
    · rw [assocFind, if_neg hk] at h
      exact List.mem_cons_of_mem _ (assocFind_mem rest k v h)

theorem takeWhile_all {p : Char → Bool} :
    ∀ l : List Char, (∀ c ∈ l, p c = true) → List.takeWhile p l = l
  | [], _ => rfl
  | c :: cs, h => by
    rw [List.takeWhile_cons, h c (by simp)]
    simpa using takeWhile_all cs (fun x hx => h x (by simp [hx]))

theorem stripQuery_eq_self (s : String) (h : '?' ∉ s.data) : stripQuery s = s := by
  unfold stripQuery
  rw [takeWhile_all s.data (fun c hc => by
    have : c ≠ '?' := fun e => h (e ▸ hc)
    simp [this])]

theorem takeWhile_append_stop {p : Char → Bool} (hstop : p '?' = false) :
    ∀ l₁ l₂ : List Char, (∀ c ∈ l₁, p c = true) →
      List.takeWhile p (l₁ ++ '?' :: l₂) = l₁
  | [], l₂, _ => by simp [List.takeWhile_cons, hstop]
  | c :: cs, l₂, h => by
    rw [List.cons_append, List.takeWhile_cons, h c (by simp)]
    simpa using takeWhile_append_stop hstop cs l₂ (fun x hx => h x (by simp [hx]))

theorem stripQuery_before_query (p q : String) (h : '?' ∉ p.data) :
    stripQuery (p ++ "?" ++ q) = p := by
  unfold stripQuery
  have hd : (p ++ "?" ++ q).data = p.data ++ '?' :: q.data := by
    simp [String.data_append]
  rw [hd, takeWhile_append_stop (by decide) p.data q.data (fun c hc => by
    have : c ≠ '?' := fun e => h (e ▸ hc)
    simp [this])]

theorem lexLe_total : ∀ a b : List Char, lexLe a b = true ∨ lexLe b a = true
  | [], _ => Or.inl rfl
  | _ :: _, [] => Or.inr rfl
  | a :: as, b :: bs => by
    by_cases hab : a.toNat < b.toNat
    · left
      simp [lexLe, hab]
    · by_cases hba : b.toNat < a.toNat
      · right
        simp [lexLe, hba]
      · rcases lexLe_total as bs with h | h
        · left
          simp [lexLe, hab, hba, h]
        · right
          simp [lexLe, hab, hba, h]

theorem lexLe_trans : ∀ a b c : List Char,
    lexLe a b = true → lexLe b c = true → lexLe a c = true
  | [], _, _, _, _ => rfl
  | _ :: _, [], _, h₁, _ => by simp [lexLe] at h₁
  | _ :: _, _ :: _, [], _, h₂ => by simp [lexLe] at h₂
  | a :: as, b :: bs, c :: cs, h₁, h₂ => by
    simp only [lexLe] at h₁ h₂ ⊢
    by_cases hab : a.toNat < b.toNat
    · by_cases hbc : b.toNat < c.toNat
      · rw [if_pos (Nat.lt_trans hab hbc)]
      · by_cases hcb : c.toNat < b.toNat
        · rw [if_neg hbc, if_pos hcb] at h₂
          exact absurd h₂ (by simp)
        · rw [if_pos (show a.toNat < c.toNat by omega)]
    · by_cases hba : b.toNat < a.toNat
      · rw [if_neg hab, if_pos hba] at h₁
        exact absurd h₁ (by simp)
      · by_cases hbc : b.toNat < c.toNat
        · rw [if_pos (show a.toNat < c.toNat by omega)]
        · by_cases hcb : c.toNat < b.toNat
          · rw [if_neg hbc, if_pos hcb] at h₂
            exact absurd h₂ (by simp)
          · rw [if_neg hab, if_neg hba] at h₁
            rw [if_neg hbc, if_neg hcb] at h₂
            rw [if_neg (show ¬ a.toNat < c.toNat by omega),
                if_neg (show ¬ c.toNat < a.toNat by omega)]
            exact lexLe_trans as bs cs h₁ h₂

theorem strLeB_trans (a b c : String) (h₁ : strLeB a b = true) (h₂ : strLeB b c = true) :
    strLeB a c = true := lexLe_trans a.data b.data c.data h₁ h₂

theorem strLeB_total (a b : String) : strLeB a b = true ∨ strLeB b a = true :=
  lexLe_total a.data b.data

theorem perm_insertSorted (a : String) : ∀ l : List String, List.Perm (insertSorted a l) (a :: l)
  | [] => List.Perm.refl _
  | b :: bs => by
    unfold insertSorted
    split
    · exact List.Perm.refl _
    · exact ((perm_insertSorted a bs).cons b).trans (List.Perm.swap a b bs)

theorem perm_sortStrings : ∀ l : List String, List.Perm (sortStrings l) l
  | [] => List.Perm.refl _
  | x :: xs => (perm_insertSorted x (sortStrings xs)).trans ((perm_sortStrings xs).cons x)

theorem pairwise_insertSorted (a : String) :
    ∀ l : List String, l.Pairwise (fun x y => strLeB x y = true) →
      (insertSorted a l).Pairwise (fun x y => strLeB x y = true)
  | [], _ => by simp [insertSorted]
  | b :: bs, h => by
    rcases List.pairwise_cons.mp h with ⟨hb, hbs⟩
    unfold insertSorted
    split
    next hab =>
      refine List.pairwise_cons.mpr ⟨?_, h⟩
      intro x hx
      rcases List.mem_cons.mp hx with rfl | hx
      · exact hab
      · exact strLeB_trans a b x hab (hb x hx)
    next hab =>
      have hba : strLeB b a = true := by
        rcases strLeB_total a b with h' | h'
        · exact absurd h' hab
        · exact h'
      refine List.pairwise_cons.mpr ⟨?_, pairwise_insertSorted a bs hbs⟩
      intro x hx
      rcases List.mem_cons.mp ((perm_insertSorted a bs).mem_iff.mp hx) with rfl | hx
      · exact hba
      · exact hb x hx

theorem pairwise_sortStrings : ∀ l : List String,
    (sortStrings l).Pairwise (fun x y => strLeB x y = true)
  | [] => List.Pairwise.nil
  | x :: xs => pairwise_insertSorted x (sortStrings xs) (pairwise_sortStrings xs)


/-! ### Claims -/

/-- C1: whenever `safe_resolve` returns a path (rather than rejecting), that
path is the canonicalized join of root and candidate and is equal to or
path-segment-nested under the canonicalized root; consequently a GET for
`/hlod/../../secret.obj` yields 404 and never the bytes of `secret.obj`,
which lives outside the hlod root. -/
theorem c1_safe_resolve_confined :
    (∀ (directory : List String) (filename : String) (p : List String),
        safe_resolve directory filename = some p →
        p = normalize (joinPy directory filename) ∧
        isLeading (normalize directory) p = true) ∧
    do_GET ["srv"] fsWithSecret "/hlod/../../secret.obj" = Outcome.errorNotFound := by
  constructor
  · intro d f p h
    unfold safe_resolve at h
    split at h
    next hc =>
      cases h
      exact ⟨rfl, hc⟩
    next => cases h
  · decide

/-- Witness for C1 at a concrete accepted input. -/
theorem c1_safe_resolve_confined_witness :
    ["a", "b.obj"] = normalize (joinPy ["a"] "b.obj") ∧
    isLeading (normalize ["a"]) ["a", "b.obj"] = true :=
  c1_safe_resolve_confined.1 ["a"] "b.obj" ["a", "b.obj"] (by decide)

/-- C2: for every root `R` and candidate `C` with no `..` segment and no
absolute-path marker, `safe_resolve` succeeds and the result is lexically
under `R`. -/
theorem c2_benign_candidate_resolves (R : List String) (C : String)
    (habs : isAbsStr C = false) (hdd : ".." ∉ segStrings C) :
    ∃ p, safe_resolve R C = some p ∧ isLeading (normalize R) p = true := by
  have hjoin : joinPy R C = R ++ segStrings C := by
    simp [joinPy, habs]
  have hlead : isLeading (normalize R) (normalize (joinPy R C)) = true := by
    rw [hjoin, normalize_append]
    exact isLeading_foldl_normStep (segStrings C) (normalize R)
      (fun s hs e => hdd (e ▸ hs))
  refine ⟨normalize (joinPy R C), ?_, hlead⟩
  unfold safe_resolve
  rw [if_pos hlead]

/-- Witness for C2. -/
theorem c2_benign_candidate_resolves_witness :
    ∃ p, safe_resolve ["a"] "b/c.obj" = some p ∧ isLeading (normalize ["a"]) p = true :=
  c2_benign_candidate_resolves ["a"] "b/c.obj" (by decide) (by decide)

/-- C3: the claim says every filesystem error during a file read still yields
404; in the code, a read error after the existence check (here: the resolved
target is a directory, `GET /hlod/`) raises an uncaught `IsADirectoryError`
instead, so no 404 (and no response at all) is produced. -/
theorem c3_read_error_is_uncaught :
    do_GET ["b"] fsHlodDir "/hlod/" = Outcome.crash "IsADirectoryError" ∧
    do_GET ["b"] fsHlodDir "/hlod/" ≠ Outcome.errorNotFound := by
  constructor
  · decide
  · decide


/-- Dispatch helper: an asset-classified path whose resolution is rejected or
whose resolved target does not exist gets `send_error(404)`. -/
theorem do_GET_asset_miss (base : List String) (fs : FS) (path : String)
    (dir : List String) (ct rest : String)
    (hstrip : stripQuery path = path)
    (hcl : classify base path = RouteClass.assetHit dir ct rest)
    (hmiss : safe_resolve dir rest = none ∨
      ∃ r, safe_resolve dir rest = some r ∧ fsExists fs r = false) :
    do_GET base fs path = Outcome.errorNotFound := by
  unfold do_GET
  rw [hstrip, hcl]
  show (match safe_resolve dir rest with
        | some r => serve_file fs r ct
        | none => Outcome.errorNotFound) = Outcome.errorNotFound
  rcases hmiss with hnone | ⟨r, hsome, hex⟩
  · rw [hnone]
  · rw [hsome]
    simp [serve_file, hex]

/-- Any matched single-file key is one of six query-free literals, so
`stripQuery` leaves it unchanged. -/
theorem stripQuery_of_singleKey (base : List String) (path : String)
    (v : List String × String)
    (h : assocFind (SINGLE_FILE_ROUTES base) path = some v) : stripQuery path = path := by
  have hm := assocFind_mem _ _ _ h
  simp only [SINGLE_FILE_ROUTES, List.mem_cons, List.not_mem_nil, or_false,
    Prod.mk.injEq] at hm
  rcases hm with ⟨rfl, _⟩ | ⟨rfl, _⟩ | ⟨rfl, _⟩ | ⟨rfl, _⟩ | ⟨rfl, _⟩ | ⟨rfl, _⟩ <;> decide

/-- C4: dispatch is first-match-wins with the exact single-file rule tried
first: any path that is a single-file key is classified and served by that
rule, whatever else might match; in particular `GET /manifest` is always
served as the manifest singleton. -/
theorem c4_singleton_first :
    (∀ (base : List String) (fs : FS) (path : String) (f : List String) (ct : String),
        assocFind (SINGLE_FILE_ROUTES base) path = some (f, ct) →
        classify base path = RouteClass.single f ct ∧
        do_GET base fs path = serve_file fs f ct) ∧
    (∀ (base : List String) (fs : FS),
        do_GET base fs "/manifest" =
          serve_file fs (base ++ ["manifests", "android_manifest.json"]) "application/json") := by
  have key : ∀ (base : List String) (fs : FS) (path : String) (f : List String) (ct : String),
      assocFind (SINGLE_FILE_ROUTES base) path = some (f, ct) →
      classify base path = RouteClass.single f ct ∧
      do_GET base fs path = serve_file fs f ct := by
    intro base fs path f ct h
    have hcl : classify base path = RouteClass.single f ct := by
      unfold classify
      rw [h]
    refine ⟨hcl, ?_⟩
    unfold do_GET
    rw [stripQuery_of_singleKey base path (f, ct) h, hcl]
  refine ⟨key, fun base fs => ?_⟩
  exact (key base fs "/manifest" (base ++ ["manifests", "android_manifest.json"])
    "application/json" rfl).2

/-- Witness for C4 at a concrete single-file route. -/
theorem c4_singleton_first_witness :
    classify ["b"] "/skybox.png" = RouteClass.single (["b"] ++ ["skybox.png"]) "image/png" ∧
    do_GET ["b"] fsHlodDir "/skybox.png" = serve_file fsHlodDir (["b"] ++ ["skybox.png"]) "image/png" :=
  c4_singleton_first.1 ["b"] fsHlodDir "/skybox.png" (["b"] ++ ["skybox.png"]) "image/png" (by decide)

/-- C5: a request `/<name>/<filename>` for a known asset route whose
confinement resolution is rejected, or whose resolved file does not exist,
answers 404 and stops: it never reaches the static fallback. -/
theorem c5_asset_miss_stops (base : List String) (fs : FS) (name : String)
    (dir : List String) (ext ct : String) (rest : String)
    (hroute : assocFind (ASSET_ROUTES base) name = some (dir, ext, ct))
    (hq : '?' ∉ rest.data)
    (hmiss : safe_resolve dir rest = none ∨
      ∃ r, safe_resolve dir rest = some r ∧ fsExists fs r = false) :
    do_GET base fs ("/" ++ name ++ "/" ++ rest) = Outcome.errorNotFound ∧
    ∀ s, do_GET base fs ("/" ++ name ++ "/" ++ rest) ≠ Outcome.fallbackStatic s := by
  have hmain : do_GET base fs ("/" ++ name ++ "/" ++ rest) = Outcome.errorNotFound := by
    simp only [ASSET_ROUTES, assocFind] at hroute
    split at hroute
    next hk =>
      cases beq_iff_eq.mp hk
      injection hroute with h'
      simp only [Prod.mk.injEq] at h'
      obtain ⟨rfl, rfl, rfl⟩ := h'
      refine do_GET_asset_miss base fs _ (GAME base ++ ["hlod"]) "model/obj" rest ?_ ?_ hmiss
      · exact stripQuery_eq_self _ (by simp [String.data_append, hq])
      · simp [classify, SINGLE_FILE_ROUTES, ASSET_ROUTES, assocFind, findAsset,
              strStartsWith, routeHead, isLeading, String.data_append, String.ext_iff]
    split at hroute
    next hk =>
      cases beq_iff_eq.mp hk
      injection hroute with h'
      simp only [Prod.mk.injEq] at h'
      obtain ⟨rfl, rfl, rfl⟩ := h'
      refine do_GET_asset_miss base fs _ (GAME base ++ ["terrain"]) "model/obj" rest ?_ ?_ hmiss
      · exact stripQuery_eq_self _ (by simp [String.data_append, hq])
      · simp [classify, SINGLE_FILE_ROUTES, ASSET_ROUTES, assocFind, findAsset,
              strStartsWith, routeHead, isLeading, String.data_append, String.ext_iff]
    split at hroute
    next hk =>
      cases beq_iff_eq.mp hk
      injection hroute with h'
      simp only [Prod.mk.injEq] at h'
      obtain ⟨rfl, rfl, rfl⟩ := h'
      refine do_GET_asset_miss base fs _ (GAME base ++ ["hlod_all"]) "model/obj" rest ?_ ?_ hmiss
      · exact stripQuery_eq_self _ (by simp [String.data_append, hq])
      · simp [classify, SINGLE_FILE_ROUTES, ASSET_ROUTES, assocFind, findAsset,
              strStartsWith, routeHead, isLeading, String.data_append, String.ext_iff]
    split at hroute
    next hk =>
      cases beq_iff_eq.mp hk
      injection hroute with h'
      simp only [Prod.mk.injEq] at h'
      obtain ⟨rfl, rfl, rfl⟩ := h'
      refine do_GET_asset_miss base fs _ (GAME base ++ ["textures"]) "image/png" rest ?_ ?_ hmiss
      · exact stripQuery_eq_self _ (by simp [String.data_append, hq])
      · simp [classify, SINGLE_FILE_ROUTES, ASSET_ROUTES, assocFind, findAsset,
              strStartsWith, routeHead, isLeading, String.data_append, String.ext_iff]
    cases hroute
  exact ⟨hmain, fun s h => by rw [hmain] at h; cases h⟩

/-- Witness for C5: `/hlod/../x.obj` is rejected by confinement and answers 404. -/
theorem c5_asset_miss_stops_witness :
    do_GET [] ⟨[], []⟩ ("/" ++ "hlod" ++ "/" ++ "../x.obj") = Outcome.errorNotFound ∧
    ∀ s, do_GET [] ⟨[], []⟩ ("/" ++ "hlod" ++ "/" ++ "../x.obj") ≠ Outcome.fallbackStatic s :=
  c5_asset_miss_stops [] ⟨[], []⟩ "hlod" ["game_data", "hlod"] ".obj" "model/obj" "../x.obj"
    (by decide) (by decide) (Or.inl (by decide))

/-- C6: `/list_<name>` with an unknown `<name>` is not answered 404 by the
listing rule; it falls through every remaining rule and reaches the generic
static fallback. -/
theorem c6_unknown_list_falls_through (base : List String) (fs : FS) (name : String)
    (hunk : assocFind (ASSET_ROUTES base) name = none) (hq : '?' ∉ name.data) :
    do_GET base fs ("/list_" ++ name) = Outcome.fallbackStatic ("/list_" ++ name) := by
  have hstrip : stripQuery ("/list_" ++ name) = "/list_" ++ name :=
    stripQuery_eq_self _ (by simp [String.data_append, hq])
  have hcl : classify base ("/list_" ++ name) = RouteClass.fallThrough := by
    simp [classify, SINGLE_FILE_ROUTES, assocFind, strStartsWith, strDropChars,
          findAsset, routeHead, isLeading, String.data_append, String.ext_iff,
          ASSET_ROUTES] at hunk ⊢
    rw [hunk]
  unfold do_GET
  rw [hstrip, hcl]
  have hne : (("/list_" ++ name) == "/") = false := by
    simp [String.ext_iff, String.data_append]
  simp [hne]

/-- Witness for C6 at a concrete unknown name. -/
theorem c6_unknown_list_falls_through_witness :
    do_GET [] ⟨[], []⟩ ("/list_" ++ "foo") = Outcome.fallbackStatic ("/list_" ++ "foo") :=
  c6_unknown_list_falls_through [] ⟨[], []⟩ "foo" (by decide) (by decide)


/-- C7: `list_files` returns an empty sequence (not an error) for a
nonexistent directory, and otherwise exactly the direct-child entry names
ending in the extension, sorted ascending by code point; for children
`b.obj`, `a.obj`, `c.txt` with filter `.obj` the result is exactly
`["a.obj", "b.obj"]`. -/
theorem c7_list_files_contract :
    (∀ (fs : FS) (d : List String) (ext : String),
        fsExists fs d = false → list_files fs d ext = Except.ok []) ∧
    (∀ (fs : FS) (d : List String) (ext : String) (cs : List String),
        assocFind fs.dirs d = some cs →
        ∃ l, list_files fs d ext = Except.ok l ∧
          List.Perm l (cs.filter (fun f => strEndsWith f ext)) ∧
          l.Pairwise (fun a b => strLeB a b = true)) ∧
    list_files fsListing ["r"] ".obj" = Except.ok ["a.obj", "b.obj"] := by
  refine ⟨?_, ?_, by decide⟩
  · intro fs d ext h
    simp [list_files, h]
  · intro fs d ext cs h
    have hex : fsExists fs d = true := by
      simp [fsExists, h]
    refine ⟨sortStrings (cs.filter (fun f => strEndsWith f ext)), ?_,
      perm_sortStrings _, pairwise_sortStrings _⟩
    simp [list_files, hex, h]

/-- Witness for C7 at a nonexistent directory and at a concrete listing. -/
theorem c7_list_files_contract_witness :
    list_files fsListing ["nope"] ".obj" = Except.ok [] ∧
    ∃ l, list_files fsListing ["r"] ".obj" = Except.ok l ∧
      List.Perm l ((["b.obj", "a.obj", "c.txt"]).filter (fun f => strEndsWith f ".obj")) ∧
      l.Pairwise (fun a b => strLeB a b = true) :=
  ⟨c7_list_files_contract.1 fsListing ["nope"] ".obj" (by decide),
   c7_list_files_contract.2.1 fsListing ["r"] ".obj" ["b.obj", "a.obj", "c.txt"] (by decide)⟩

/-- C8: on every successful response the Content-Length equals the byte
length of the body: the serialized JSON array's bytes for a listing, the
file's bytes for a file response. -/
theorem c8_content_length_exact :
    (∀ (xs : List String) (r : HttpResponse),
        serve_json xs = Outcome.resp r →
        r.contentLength = r.body.length ∧ r.body = encodeStr (jsonDumps xs)) ∧
    (∀ (fs : FS) (p : List String) (ct : String) (r : HttpResponse),
        serve_file fs p ct = Outcome.resp r →
        r.contentLength = r.body.length ∧ readBytes fs p = Except.ok r.body) ∧
    (∀ (base : List String) (fs : FS) (sp : String) (r : HttpResponse),
        do_GET base fs sp = Outcome.resp r → r.contentLength = r.body.length) := by
  have hjson : ∀ (xs : List String) (r : HttpResponse),
      serve_json xs = Outcome.resp r →
      r.contentLength = r.body.length ∧ r.body = encodeStr (jsonDumps xs) := by
    intro xs r h
    injection h with h2
    cases h2
    exact ⟨rfl, rfl⟩
  have hfile : ∀ (fs : FS) (p : List String) (ct : String) (r : HttpResponse),
      serve_file fs p ct = Outcome.resp r →
      r.contentLength = r.body.length ∧ readBytes fs p = Except.ok r.body := by
    intro fs p ct r h
    unfold serve_file at h
    split at h
    · cases h
    · split at h
      next bytes heq =>
        injection h with h2
        cases h2
        exact ⟨rfl, heq⟩
      next e heq => cases h
  refine ⟨hjson, hfile, ?_⟩
  intro base fs sp r h
  unfold do_GET at h
  split at h
  · exact (hfile _ _ _ _ h).1
  · split at h
    · exact (hjson _ _ h).1
    · cases h
  · split at h
    · exact (hfile _ _ _ _ h).1
    · cases h
  · cases h

/-- Witness for C8: the `/manifest` response over `fsManifest`. -/
theorem c8_content_length_exact_witness :
    respManifest.contentLength = respManifest.body.length :=
  c8_content_length_exact.2.2 ["b"] fsManifest "/manifest" respManifest (by decide)

/-- C9: a log line is suppressed iff its status argument is `404`; every
other outcome (e.g. any 200 response with a well-formed request line, which
always contains a space) is logged, and the error log of a 404 is suppressed
for every message. -/
theorem c9_log_suppressed_iff_404 :
    (∀ (requestline codeStr : String), ' ' ∈ requestline.data →
        (log_message_suppressed (log_request_args requestline codeStr) = true ↔
          codeStr = "404")) ∧
    (∀ msg : String, log_message_suppressed ["404", msg] = true) := by
  constructor
  · intro rl code hsp
    have hne : rl ≠ "404" := by
      intro he
      rw [he] at hsp
      exact absurd hsp (by decide)
    have hrl : (rl == "404") = false := beq_eq_false_iff_ne.mpr hne
    simp [log_message_suppressed, log_request_args, hrl]
  · intro msg
    simp [log_message_suppressed]

/-- Witness for C9: a 200 response with a well-formed request line. -/
theorem c9_log_suppressed_iff_404_witness :
    log_message_suppressed (log_request_args "GET / HTTP/1.1" "200") = true ↔
      "200" = "404" :=
  c9_log_suppressed_iff_404.1 "GET / HTTP/1.1" "200" (by decide)

/-- C10: routing sees only the part of the request path before the first
`?`: appending any query string never changes the classification, and
`/manifest?v=2` is served by the `/manifest` singleton route. -/
theorem c10_routing_ignores_query :
    (∀ (base : List String) (P Q : String), '?' ∉ P.data →
        classifyRaw base (P ++ "?" ++ Q) = classifyRaw base P) ∧
    (∀ (base : List String) (fs : FS),
        do_GET base fs "/manifest?v=2" =
          serve_file fs (base ++ ["manifests", "android_manifest.json"]) "application/json") := by
  constructor
  · intro base P Q h
    unfold classifyRaw
    rw [stripQuery_before_query P Q h, stripQuery_eq_self P h]
  · intro base fs
    unfold do_GET
    rw [show stripQuery "/manifest?v=2" = "/manifest" by decide]
    have hcl : classify base "/manifest" =
        RouteClass.single (base ++ ["manifests", "android_manifest.json"]) "application/json" := by
      unfold classify
      rw [show assocFind (SINGLE_FILE_ROUTES base) "/manifest" =
        some (base ++ ["manifests", "android_manifest.json"], "application/json") from rfl]
    rw [hcl]

/-- Witness for C10 at a concrete path and query. -/
theorem c10_routing_ignores_query_witness :
    classifyRaw [] ("/x" ++ "?" ++ "v=1") = classifyRaw [] "/x" :=
  c10_routing_ignores_query.1 [] "/x" "v=1" (by decide)

end Hoyomap
